import Mathlib

/-
  Verification of the checkout-ui-app payment-orchestration logic.

  Shallow embedding of:
  - the settlement-plan builder of `createMultiVendorCheckoutSession`
    (src/app/api/checkout/route.ts, first iteration, lines 103-180);
  - the webhook handlers of src/app/api/webhooks/route.ts (three historical
    iterations, called V1/V2/V3 below) and src/unnamed/part_007;
  - the deduplicating per-account transfer loop of the charge.succeeded
    handler (webhooks route.ts third iteration, lines 419-447) and of
    `createTransfersToConnectedAccounts` (src/unnamed/part_008, lines 129-184);
  - the duplicate-customer selection of `findStripeCustomerByEmail` and
    `getPrimaryCustomerId` (src/unnamed/part_009).

  Monetary amounts are minor-unit integers (Nat).  The JS expression
  `Math.round(totalAmount * (10 / 100))` on integer minor units is modelled
  as exact round-half-up of a tenth, `(n + 5) / 10`; `Math.floor(x * 0.1)`
  as `n / 10`.  Remote calls are modelled by a `Gateway` environment of pure
  lookup functions plus a per-destination failure oracle, and every handler
  additionally returns the list of Gateway calls it performed.
-/

/-- A cart line item as received by the checkout endpoint
(`CartItem` in src/app/api/checkout/route.ts).  `dest` is
`stripeConnectedAccountId`; `none` marks a platform item. -/
structure CartItem where
  id : String
  priceId : String
  quantity : Nat
  dest : Option String
deriving DecidableEq

/-- One entry of the `transfer_data` metadata array read by the webhook
handlers: `{ amount, destination }`. -/
structure TransferEntry where
  amount : Nat
  destination : String
deriving DecidableEq

/-- Result of `JSON.parse` on the `transfer_data` metadata string. -/
inductive ParseResult
  | ok (entries : List TransferEntry)
  | malformed
deriving DecidableEq

/-- The slice of a Stripe payment intent used by the webhook handlers. -/
structure PaymentIntent where
  id : String
  currency : String
  transfer_data_meta : Option ParseResult
  latest_charge : Option String
  charges_data : List String
deriving DecidableEq

/-- The slice of a Stripe checkout session object used by the webhook
handlers. -/
structure Session where
  id : String
  payment_intent : Option String
  payment_status : String
deriving DecidableEq

/-- The slice of a Stripe charge object used by the webhook handlers. -/
structure Charge where
  id : String
  amount : Nat
  currency : String
  transfer_group : Option String
deriving DecidableEq

/-- A fund transfer created through the Gateway.  The Gateway's transfer
list is kept most-recent-first, as `stripe.transfers.list` returns it. -/
structure TransferRec where
  amount : Nat
  currency : String
  destination : String
  source_transaction : String
  transfer_group : Option String
deriving DecidableEq

/-- A verified webhook event.  `other` covers every event type that is none
of checkout.session.completed, payment_intent.succeeded, charge.succeeded. -/
inductive WebhookEvent
  | checkoutSessionCompleted (s : Session)
  | paymentIntentSucceeded (p : PaymentIntent)
  | chargeSucceeded (c : Charge)
  | other (type : String)
deriving DecidableEq

/-- A webhook request after header extraction: whether the
`stripe-signature` header is present, and the event produced by
`stripe.webhooks.constructEvent` when verification succeeds (`none` when it
throws). -/
structure WebhookReq where
  hasSignature : Bool
  verified : Option WebhookEvent
deriving DecidableEq

/-- One remote call to the payment-processor Gateway. -/
inductive GatewayCall
  | retrievePaymentIntent (id : String)
  | retrievePrice (id : String)
  | listCustomers (email : String)
  | createSession
  | createTransfer (amount : Nat) (currency destination source : String)
deriving DecidableEq

/-- The Gateway environment: read lookups plus a per-destination
transfer-creation failure oracle (`createFails d = true` means
`stripe.transfers.create` to destination `d` throws). -/
structure Gateway where
  pi : String → Option PaymentIntent
  createFails : String → Bool
  sessionCreate : Option String

/-- Response body shapes the endpoints produce. -/
inductive RespBody
  | received
  | urlBody (u : String)
  | errorBody (msg : String)
deriving DecidableEq

/-- An HTTP response: status code plus body. -/
structure HttpResponse where
  status : Nat
  body : RespBody
deriving DecidableEq

/-- The unconditional acknowledgement `200 {received:true}`. -/
def respReceived : HttpResponse := ⟨200, RespBody.received⟩

/-- The webhook transfer group id hard-coded in the third webhook
iteration (`ACCOUNT_GROUP_ID`). -/
def ACCOUNT_GROUP_ID : String := "acctgrp_ReaChY6ZbHKyvb"

/-- Models `Math.round(totalAmount * (applicationFeePercent / 100))` with
`applicationFeePercent = 10` on integer minor units: round-half-up of one
tenth. -/
def applicationFeeOf (amount : Nat) : Nat := (amount + 5) / 10

/-- Models `Math.floor(totalAmount * 0.1)` used by the even-split webhook
settlement (webhooks route.ts third iteration, line 348). -/
def evenPlatformFee (total : Nat) : Nat := total / 10

/-- Models `Math.floor((totalAmount - platformFee) / connectedAccountIds.length)`
(webhooks route.ts third iteration, line 349). -/
def evenAmountPerVendor (total n : Nat) : Nat := (total - evenPlatformFee total) / n

/-- The amount a cart item contributes: `price.unit_amount * item.quantity`.
`none` when `stripe.prices.retrieve` throws or the price has no
`unit_amount` (both make the loop skip the item, route.ts lines 113-117). -/
def itemAmount (priceOf : String → Option Nat) (it : CartItem) : Option Nat :=
  match priceOf it.priceId with
  | none => none
  | some u => if u = 0 then none else some (u * it.quantity)

/-- One iteration of the `transferGroups` accumulation loop of
`createMultiVendorCheckoutSession` (route.ts lines 111-142): for an item
with a resolvable price and a connected account, add
`transferAmount = totalAmount - applicationFee` and the per-item
`applicationFee` into that account's entry of the record. -/
def stepGroup (priceOf : String → Option Nat) (gs : String → Option (Nat × Nat))
    (it : CartItem) : String → Option (Nat × Nat) :=
  match itemAmount priceOf it, it.dest with
  | some a, some d =>
      let fee := applicationFeeOf a
      let amt := a - fee
      fun e =>
        if e = d then
          match gs d with
          | some (x, y) => some (x + amt, y + fee)
          | none => some (amt, fee)
        else gs e
  | _, _ => gs

/-- The `transferGroups` record built by folding `stepGroup` over the cart,
starting from a given record. -/
def buildTransferGroupsFrom (priceOf : String → Option Nat)
    (gs : String → Option (Nat × Nat)) (items : List CartItem) :
    String → Option (Nat × Nat) :=
  items.foldl (stepGroup priceOf) gs

/-- The settlement plan (`transferGroups` metadata) of
`createMultiVendorCheckoutSession`: destination account id to
`(amount, application_fee)`. -/
def buildTransferGroups (priceOf : String → Option Nat) (items : List CartItem) :
    String → Option (Nat × Nat) :=
  buildTransferGroupsFrom priceOf (fun _ => none) items

/-- The resolved amounts of the items belonging to one destination account,
in cart order. -/
def destAmounts (priceOf : String → Option Nat) (items : List CartItem)
    (d : String) : List Nat :=
  items.filterMap (fun it => if it.dest = some d then itemAmount priceOf it else none)

/-- The subtotal of a destination: Σ unitPrice × quantity over its items. -/
def destSubtotal (priceOf : String → Option Nat) (items : List CartItem)
    (d : String) : Nat :=
  (destAmounts priceOf items d).sum

/-- The fee the plan accumulates for a destination: the sum of the per-item
rounded fees. -/
def destFee (priceOf : String → Option Nat) (items : List CartItem)
    (d : String) : Nat :=
  ((destAmounts priceOf items d).map applicationFeeOf).sum

/-- The transfer amount the plan accumulates for a destination: the sum of
the per-item `totalAmount - applicationFee` values. -/
def destTransfer (priceOf : String → Option Nat) (items : List CartItem)
    (d : String) : Nat :=
  ((destAmounts priceOf items d).map (fun a => a - applicationFeeOf a)).sum

/-- The total charged for the session: the sum of the resolved line-item
amounts (items whose price fails to resolve are skipped from `lineItems`
too). -/
def totalCharge (priceOf : String → Option Nat) (items : List CartItem) : Nat :=
  (items.filterMap (itemAmount priceOf)).sum

/-- Accumulate a contribution pair into an optional record entry, as the
`transferGroups[...] +=` / initial-assignment branches do. -/
def accPair (o : Option (Nat × Nat)) (p : Nat × Nat) : Nat × Nat :=
  match o with
  | none => p
  | some (x, y) => (x + p.1, y + p.2)

/-- Total money the plan accounts to a destination (transfer + fee), zero
when the plan has no entry for it. -/
def planPayout (priceOf : String → Option Nat) (items : List CartItem)
    (d : String) : Nat :=
  match buildTransferGroups priceOf items d with
  | none => 0
  | some (x, y) => x + y

/-- The amount a single item adds to a given destination's subtotal. -/
def itemContribution (priceOf : String → Option Nat) (it : CartItem)
    (d : String) : Nat :=
  if it.dest = some d then (itemAmount priceOf it).getD 0 else 0

/-- One step of the unconditional transfer-creation loop shared by the
first and second webhook iterations (route.ts lines 78-98 and 177-191) and
by src/unnamed/part_007 (lines 52-66): attempt `stripe.transfers.create`
for one `transfer_data` entry, catching a failure and continuing.  The
attempt is always recorded in the call trace; on success the transfer is
prepended to the Gateway's (most-recent-first) transfer list. -/
def transferStepV1 (gw : Gateway) (chid currency : String)
    (acc : List TransferRec × List GatewayCall) (td : TransferEntry) :
    List TransferRec × List GatewayCall :=
  (if gw.createFails td.destination then acc.1
   else { amount := td.amount, currency := currency, destination := td.destination,
          source_transaction := chid, transfer_group := none } :: acc.1,
   acc.2 ++ [GatewayCall.createTransfer td.amount currency td.destination chid])

/-- The full unconditional transfer loop over a `transfer_data` array. -/
def transferLoopV1 (gw : Gateway) (st : List TransferRec) (tds : List TransferEntry)
    (chid currency : String) : List TransferRec × List GatewayCall :=
  tds.foldl (transferStepV1 gw chid currency) (st, [])

/-- One step of the even-split transfer-creation loop of the third webhook
iteration's checkout.session.completed handler (route.ts lines 354-371):
create a transfer of the per-vendor amount with the hard-coded transfer
group, catching a failure and continuing. -/
def transferStepV3 (gw : Gateway) (chid currency : String) (per : Nat)
    (acc : List TransferRec × List GatewayCall) (a : String) :
    List TransferRec × List GatewayCall :=
  (if gw.createFails a then acc.1
   else { amount := per, currency := currency, destination := a,
          source_transaction := chid, transfer_group := some ACCOUNT_GROUP_ID } :: acc.1,
   acc.2 ++ [GatewayCall.createTransfer per currency a chid])

/-- The even-split transfer loop over the connected account ids. -/
def transferLoopV3 (gw : Gateway) (st : List TransferRec) (accountIds : List String)
    (per : Nat) (chid currency : String) : List TransferRec × List GatewayCall :=
  accountIds.foldl (transferStepV3 gw chid currency per) (st, [])

/-- The payment-intent processing of the first webhook iteration
(route.ts lines 31-107): retrieve the payment intent, parse
`metadata.transfer_data`, resolve the charge id from `latest_charge` or
`charges.data[0]`, then run the unconditional transfer loop.  Every error
is caught by the surrounding try, after which the handler still falls
through to the acknowledgement.  A `none` payment-intent reference makes
the retrieve throw before reaching the Gateway. -/
def processPaymentIntentV1 (gw : Gateway) (st : List TransferRec)
    (pidOpt : Option String) : List TransferRec × List GatewayCall :=
  match pidOpt with
  | none => (st, [])
  | some pid =>
    match gw.pi pid with
    | none => (st, [GatewayCall.retrievePaymentIntent pid])
    | some p =>
      match p.transfer_data_meta with
      | none => (st, [GatewayCall.retrievePaymentIntent pid])
      | some ParseResult.malformed => (st, [GatewayCall.retrievePaymentIntent pid])
      | some (ParseResult.ok tds) =>
        match (match p.latest_charge with
               | some c => some c
               | none => p.charges_data.head?) with
        | none => (st, [GatewayCall.retrievePaymentIntent pid])
        | some chid =>
          let r := transferLoopV1 gw st tds chid p.currency
          (r.1, GatewayCall.retrievePaymentIntent pid :: r.2)

/-- Event dispatch of the first webhook iteration: payment_intent.succeeded
uses the event object's id, checkout.session.completed uses the session's
`payment_intent`; every other event type is ignored. -/
def processEventV1 (gw : Gateway) (st : List TransferRec) (ev : WebhookEvent) :
    List TransferRec × List GatewayCall :=
  match ev with
  | WebhookEvent.paymentIntentSucceeded p => processPaymentIntentV1 gw st (some p.id)
  | WebhookEvent.checkoutSessionCompleted s => processPaymentIntentV1 gw st s.payment_intent
  | _ => (st, [])

/-- The first webhook iteration's POST handler (route.ts lines 8-111):
signature gating, then event processing inside a try/catch, then the
unconditional `200 {received:true}`. -/
def handleWebhookV1 (gw : Gateway) (st : List TransferRec) (req : WebhookReq) :
    HttpResponse × List TransferRec × List GatewayCall :=
  if req.hasSignature = false then
    (⟨400, RespBody.errorBody "Missing stripe-signature header"⟩, st, [])
  else
    match req.verified with
    | none => (⟨400, RespBody.errorBody "Webhook signature verification failed"⟩, st, [])
    | some ev => (respReceived, processEventV1 gw st ev)

/-- The second webhook iteration's POST handler (route.ts lines 121-232).
It handles only checkout.session.completed with `payment_status === "paid"`
and, unlike the first iteration, returns 400 when the session carries no
payment-intent reference (lines 151-154); its payment-intent retrieve is
not wrapped in a try, so a retrieve failure escapes as a 500. -/
def handleWebhookV2 (gw : Gateway) (st : List TransferRec) (req : WebhookReq) :
    HttpResponse × List TransferRec × List GatewayCall :=
  if req.hasSignature = false then
    (⟨400, RespBody.errorBody "Missing stripe-signature header"⟩, st, [])
  else
    match req.verified with
    | none => (⟨400, RespBody.errorBody "Webhook Error"⟩, st, [])
    | some ev =>
      match ev with
      | WebhookEvent.checkoutSessionCompleted s =>
        if s.payment_status = "paid" then
          match s.payment_intent with
          | none => (⟨400, RespBody.errorBody "No payment intent ID found"⟩, st, [])
          | some pid =>
            match gw.pi pid with
            | none =>
              (⟨500, RespBody.errorBody "Internal Server Error"⟩, st,
               [GatewayCall.retrievePaymentIntent pid])
            | some p =>
              match p.transfer_data_meta with
              | some (ParseResult.ok tds) =>
                match p.latest_charge with
                | some chid =>
                  let r := transferLoopV1 gw st tds chid p.currency
                  (respReceived, r.1, GatewayCall.retrievePaymentIntent pid :: r.2)
                | none => (respReceived, st, [GatewayCall.retrievePaymentIntent pid])
              | some ParseResult.malformed =>
                (respReceived, st, [GatewayCall.retrievePaymentIntent pid])
              | none => (respReceived, st, [GatewayCall.retrievePaymentIntent pid])
        else (respReceived, st, [])
      | _ => (respReceived, st, [])

/-- Event processing of src/unnamed/part_007: only payment_intent.succeeded
is handled; `metadata.transfer_data` is read from the event object before
any retrieve, and the retrieve plus loop sit in one try/catch. -/
def processPart7 (gw : Gateway) (st : List TransferRec) (ev : WebhookEvent) :
    List TransferRec × List GatewayCall :=
  match ev with
  | WebhookEvent.paymentIntentSucceeded p =>
    match p.transfer_data_meta with
    | some (ParseResult.ok tds) =>
      match gw.pi p.id with
      | none => (st, [GatewayCall.retrievePaymentIntent p.id])
      | some p2 =>
        match p2.latest_charge with
        | none => (st, [GatewayCall.retrievePaymentIntent p.id])
        | some chid =>
          let r := transferLoopV1 gw st tds chid p.currency
          (r.1, GatewayCall.retrievePaymentIntent p.id :: r.2)
    | some ParseResult.malformed => (st, [])
    | none => (st, [])
  | _ => (st, [])

/-- The POST handler of src/unnamed/part_007: signature gating, event
processing, unconditional acknowledgement. -/
def handleWebhookPart7 (gw : Gateway) (st : List TransferRec) (req : WebhookReq) :
    HttpResponse × List TransferRec × List GatewayCall :=
  if req.hasSignature = false then
    (⟨400, RespBody.errorBody "Missing stripe-signature header"⟩, st, [])
  else
    match req.verified with
    | none => (⟨400, RespBody.errorBody "Webhook signature verification failed"⟩, st, [])
    | some ev => (respReceived, processPart7 gw st ev)

/-- `stripe.transfers.list({destination, transfer_group})`: the transfers
with that destination and the hard-coded group, most recent first, cut to
the default page size of 10 (part_008 passes `limit: 10` explicitly). -/
def listTransfersQuery (st : List TransferRec) (dest : String) : List TransferRec :=
  (st.filter (fun t => t.destination == dest &&
    t.transfer_group == some ACCOUNT_GROUP_ID)).take 10

/-- The existence check of the deduplicating settlement loops
(route.ts third iteration lines 422-430, part_008 lines 133-149): does the
listed page contain a transfer whose `source_transaction` is this charge? -/
def hasTransferForCharge (st : List TransferRec) (dest chid : String) : Bool :=
  (listTransfersQuery st dest).any (fun t => t.source_transaction == chid)

/-- One step of the deduplicating settlement loop: skip the destination if
a transfer for this charge is already visible, otherwise attempt the
create, catching a failure and continuing. -/
def settleStep (gw : Gateway) (chid currency : String) (per : Nat)
    (st : List TransferRec) (a : String) : List TransferRec :=
  if hasTransferForCharge st a chid then st
  else if gw.createFails a then st
  else { amount := per, currency := currency, destination := a,
         source_transaction := chid, transfer_group := some ACCOUNT_GROUP_ID } :: st

/-- The charge.succeeded settlement of the third webhook iteration
(route.ts lines 408-447): even-split amount per vendor, then the
deduplicating per-account loop. -/
def settleChargeSucceeded (gw : Gateway) (st : List TransferRec) (ch : Charge)
    (accountIds : List String) : List TransferRec :=
  accountIds.foldl
    (settleStep gw ch.id ch.currency (evenAmountPerVendor ch.amount accountIds.length)) st

/-- Count the transfers to a destination funded by a given charge. -/
def countTransfers (st : List TransferRec) (dest chid : String) : Nat :=
  st.countP (fun t => t.destination == dest && t.source_transaction == chid)

/-- A checkout request body (`CheckoutRequest`): `items` is `none` when the
JSON body carries no items field at all. -/
structure CheckoutRequest where
  items : Option (List CartItem)
  userId : String
  userEmail : Option String
deriving DecidableEq

/-- The checkout POST handler (src/app/api/checkout/route.ts, first
iteration, lines 22-83 plus `createMultiVendorCheckoutSession`).  When the
body has no items field, the request logging dereferences
`items.length` on `undefined` and the thrown TypeError is caught by the
outer catch, yielding the generic 500 before the empty-cart guard is ever
reached.  An empty items list hits the guard and yields
`400 {error:"Cart is empty"}` with no Gateway call. -/
def checkoutPOST (gw : Gateway) (req : CheckoutRequest) :
    HttpResponse × List GatewayCall :=
  match req.items with
  | none => (⟨500, RespBody.errorBody "Failed to create checkout session"⟩, [])
  | some items =>
    if items.isEmpty then (⟨400, RespBody.errorBody "Cart is empty"⟩, [])
    else
      let priceCalls := items.map (fun it => GatewayCall.retrievePrice it.priceId)
      let custCalls := match req.userEmail with
        | some e => [GatewayCall.listCustomers e]
        | none => []
      let allCalls := priceCalls ++ custCalls ++ [GatewayCall.createSession]
      match gw.sessionCreate with
      | some url => (⟨200, RespBody.urlBody url⟩, allCalls)
      | none => (⟨500, RespBody.errorBody "Failed to create checkout session"⟩, allCalls)

/-- The pure selection core of `findStripeCustomerByEmail`
(src/unnamed/part_009, lines 29-73), applied to the customer list the
Gateway returns for an email. -/
structure StripeCustomer where
  id : String
  created : Nat
  sourcesCount : Nat
deriving DecidableEq

/-- Models a stable descending sort by `created` followed by `[0]`: the
first element attaining the maximal creation time. -/
def firstMaxCreated (c : StripeCustomer) (cs : List StripeCustomer) : StripeCustomer :=
  cs.foldl (fun best x => if best.created < x.created then x else best) c

/-- `findStripeCustomerByEmail`'s choice among the matching customers:
none on an empty list; the single match when unique; otherwise the
customers with a non-empty `sources` list are preferred and the most
recently created of those is taken, falling back to the most recently
created overall (part_009 lines 34-66). -/
def findStripeCustomerByEmail (cs : List StripeCustomer) : Option StripeCustomer :=
  match cs with
  | [] => none
  | [c] => some c
  | c1 :: c2 :: rest =>
    match (c1 :: c2 :: rest).filter (fun c => decide (0 < c.sourcesCount)) with
    | [] => some (firstMaxCreated c1 (c2 :: rest))
    | w :: ws => some (firstMaxCreated w ws)

/-- The slice of a retrieved customer object used by
`getPrimaryCustomerId`: deletion flag and the duplicate-marker metadata. -/
structure CustomerMeta where
  deleted : Bool
  is_duplicate : Option String
  primary_customer_id : Option String
deriving DecidableEq

/-- `getPrimaryCustomerId` (src/unnamed/part_009, lines 114-134): retrieve
the customer (a failed retrieve returns the input); when it is not deleted,
`metadata.is_duplicate === "true"` and `metadata.primary_customer_id` is a
truthy (non-empty) string, return that primary id, otherwise the input. -/
def getPrimaryCustomerId (store : String → Option CustomerMeta)
    (customerId : String) : String :=
  match store customerId with
  | none => customerId
  | some c =>
    if c.deleted = false ∧ c.is_duplicate = some "true" then
      match c.primary_customer_id with
      | some p => if p = "" then customerId else p
      | none => customerId
    else customerId

/-- A concrete payment intent whose metadata carries a one-vendor
settlement plan. -/
def piFix : PaymentIntent :=
  ⟨"pi_1", "usd", some (ParseResult.ok [⟨1800, "acct_v1"⟩]), some "ch_1", []⟩

/-- A concrete Gateway on which every transfer creation succeeds. -/
def gwNoFail : Gateway :=
  ⟨fun pid => if pid = "pi_1" then some piFix else none,
   fun _ => false, some "https://pay.example/s1"⟩

/-- A concrete charge in the hard-coded transfer group. -/
def chFix : Charge := ⟨"ch_1", 2500, "usd", some ACCOUNT_GROUP_ID⟩

/-- A verified payment_intent.succeeded notification for `piFix`. -/
def reqPISucceeded : WebhookReq :=
  ⟨true, some (WebhookEvent.paymentIntentSucceeded piFix)⟩

/-- A verified checkout.session.completed notification for a paid session
that carries no payment-intent reference. -/
def reqPaidNoPI : WebhookReq :=
  ⟨true, some (WebhookEvent.checkoutSessionCompleted ⟨"cs_1", none, "paid"⟩)⟩

/-- A notification with no stripe-signature header. -/
def reqNoSig : WebhookReq := ⟨false, none⟩

/-- A verified notification of an unhandled event type. -/
def reqOtherEvent : WebhookReq := ⟨true, some (WebhookEvent.other "invoice.paid")⟩

/-- Price table mapping two price ids to 5 minor units each. -/
def priceTwoFives : String → Option Nat :=
  fun p => if p = "p1" ∨ p = "p2" then some 5 else none

/-- Two items of 5 minor units each for the same vendor. -/
def itemsTwoFives : List CartItem :=
  [⟨"i1", "p1", 1, some "v1"⟩, ⟨"i2", "p2", 1, some "v1"⟩]

/-- Price table for the specification's worked example. -/
def priceSpecExample : String → Option Nat :=
  fun p => if p = "p1" then some 1000 else if p = "p2" then some 500 else none

/-- The specification's worked example cart: a 1000 x 2 vendor item and a
500 x 1 platform item. -/
def itemsSpecExample : List CartItem :=
  [⟨"i1", "p1", 2, some "acct_V1"⟩, ⟨"i2", "p2", 1, none⟩]

/-- A customer store in which duplicate markers form a chain
cus_A -> cus_B -> cus_C. -/
def storeChain : String → Option CustomerMeta :=
  fun s =>
    if s = "cus_A" then some ⟨false, some "true", some "cus_B"⟩
    else if s = "cus_B" then some ⟨false, some "true", some "cus_C"⟩
    else none

/-- A customer store with a single duplicate marker whose primary is
unmarked. -/
def storeSingleDup : String → Option CustomerMeta :=
  fun s => if s = "cus_A" then some ⟨false, some "true", some "cus_B"⟩ else none

/-- A checkout request whose items field is present but empty. -/
def reqEmptyCart : CheckoutRequest := ⟨some [], "user_1", some "buyer@example.com"⟩

/-- A checkout request whose body carries no items field. -/
def reqAbsentItems : CheckoutRequest := ⟨none, "user_1", none⟩

/-- The per-item rounded fee never exceeds the item amount. -/
theorem applicationFeeOf_le (a : Nat) : applicationFeeOf a ≤ a := by
  unfold applicationFeeOf; omega

/-- A skipped or platform item leaves the transfer-group record alone. -/
theorem stepGroup_skip (priceOf : String → Option Nat)
    (gs : String → Option (Nat × Nat)) (it : CartItem)
    (h : itemAmount priceOf it = none ∨ it.dest = none) :
    stepGroup priceOf gs it = gs := by
  rcases hd : it.dest with _ | d <;> rcases ha : itemAmount priceOf it with _ | a <;>
    simp [stepGroup, ha, hd] <;> rcases h with h | h <;> simp_all

/-- A contributing item updates exactly its destination's record entry. -/
theorem stepGroup_contrib (priceOf : String → Option Nat)
    (gs : String → Option (Nat × Nat)) (it : CartItem) (a : Nat) (d : String)
    (ha : itemAmount priceOf it = some a) (hd : it.dest = some d) :
    stepGroup priceOf gs it = fun e =>
      if e = d then
        some (accPair (gs d) (a - applicationFeeOf a, applicationFeeOf a))
      else gs e := by
  funext e
  simp only [stepGroup, ha, hd]
  by_cases he : e = d
  · rcases hg : gs d with _ | ⟨x, y⟩ <;> simp [he, accPair, hg]
  · simp [he]

/-- Appending a skipped item to the cart does not change a destination's
amount list. -/
theorem destAmounts_cons_skip (priceOf : String → Option Nat) (it : CartItem)
    (rest : List CartItem) (d : String)
    (h : itemAmount priceOf it = none ∨ it.dest ≠ some d) :
    destAmounts priceOf (it :: rest) d = destAmounts priceOf rest d := by
  rcases h with h | h
  · by_cases hd : it.dest = some d <;> simp [destAmounts, List.filterMap_cons, hd, h]
  · simp [destAmounts, List.filterMap_cons, h]

/-- A contributing item prepends its amount to its destination's amount
list. -/
theorem destAmounts_cons_contrib (priceOf : String → Option Nat) (it : CartItem)
    (rest : List CartItem) (a : Nat) (d : String)
    (ha : itemAmount priceOf it = some a) (hd : it.dest = some d) :
    destAmounts priceOf (it :: rest) d = a :: destAmounts priceOf rest d := by
  simp [destAmounts, List.filterMap_cons, ha, hd]

/-- Folding the plan-building step over a cart adds each destination's
per-item transfer and fee sums into the starting record. -/
theorem buildFrom_lookup (priceOf : String → Option Nat) (items : List CartItem) :
    ∀ (gs : String → Option (Nat × Nat)) (d : String),
    buildTransferGroupsFrom priceOf gs items d =
      if destAmounts priceOf items d = [] then gs d
      else some (accPair (gs d)
            (destTransfer priceOf items d, destFee priceOf items d)) := by
  induction items with
  | nil => intro gs d; simp [buildTransferGroupsFrom, destAmounts]
  | cons it rest ih =>
    intro gs d
    have hstep : buildTransferGroupsFrom priceOf gs (it :: rest) =
        buildTransferGroupsFrom priceOf (stepGroup priceOf gs it) rest := rfl
    rw [hstep]
    rcases ha : itemAmount priceOf it with _ | a
    · rw [stepGroup_skip priceOf gs it (Or.inl ha), ih]
      have hda := destAmounts_cons_skip priceOf it rest d (Or.inl ha)
      simp only [destTransfer, destFee, hda]
    · rcases hd : it.dest with _ | d0
      · rw [stepGroup_skip priceOf gs it (Or.inr hd), ih]
        have hda := destAmounts_cons_skip priceOf it rest d (Or.inr (by simp [hd]))
        simp only [destTransfer, destFee, hda]
      · rw [stepGroup_contrib priceOf gs it a d0 ha hd, ih]
        by_cases hdd : d0 = d
        · subst hdd
          have hda := destAmounts_cons_contrib priceOf it rest a d0 ha hd
          have hdt : destTransfer priceOf (it :: rest) d0 =
              (a - applicationFeeOf a) + destTransfer priceOf rest d0 := by
            simp [destTransfer, hda]
          have hdf : destFee priceOf (it :: rest) d0 =
              applicationFeeOf a + destFee priceOf rest d0 := by
            simp [destFee, hda]
          by_cases hr : destAmounts priceOf rest d0 = []
          · have hT : destTransfer priceOf rest d0 = 0 := by simp [destTransfer, hr]
            have hF : destFee priceOf rest d0 = 0 := by simp [destFee, hr]
            simp [hr, hda, hdt, hdf, hT, hF]
          · simp only [hr, if_neg, hda]
            rcases hg : gs d0 with _ | ⟨x, y⟩ <;>
              simp [hg, accPair, hdt, hdf, hda] <;> omega
        · have hda := destAmounts_cons_skip priceOf it rest d
            (Or.inr (by simp [hd, hdd]))
          simp only [destTransfer, destFee, hda]
          have hdd2 : ¬ d = d0 := fun h => hdd h.symm
          simp [hdd2]
/-- The plan entry of a destination with at least one contributing item is
its per-item transfer and fee sums; destinations with none are absent. -/
theorem build_lookup (priceOf : String → Option Nat) (items : List CartItem)
    (d : String) :
    buildTransferGroups priceOf items d =
      if destAmounts priceOf items d = [] then none
      else some (destTransfer priceOf items d, destFee priceOf items d) := by
  unfold buildTransferGroups
  rw [buildFrom_lookup]
  rcases h : destAmounts priceOf items d with _ | _ <;> simp [h, accPair]

/-- Per-item transfers and fees recombine into the subtotal. -/
theorem sum_sub_add_sum (l : List Nat) :
    (l.map (fun a => a - applicationFeeOf a)).sum + (l.map applicationFeeOf).sum
      = l.sum := by
  induction l with
  | nil => simp
  | cons a rest ih =>
    have := applicationFeeOf_le a
    simp only [List.map_cons, List.sum_cons]
    omega

/-- The per-destination transfer and fee sum to the destination subtotal. -/
theorem destTransfer_add_destFee (priceOf : String → Option Nat)
    (items : List CartItem) (d : String) :
    destTransfer priceOf items d + destFee priceOf items d
      = destSubtotal priceOf items d :=
  sum_sub_add_sum (destAmounts priceOf items d)

/-- What the plan accounts to a destination equals that destination's
subtotal. -/
theorem planPayout_eq_destSubtotal (priceOf : String → Option Nat)
    (items : List CartItem) (d : String) :
    planPayout priceOf items d = destSubtotal priceOf items d := by
  unfold planPayout
  rw [build_lookup]
  by_cases h : destAmounts priceOf items d = []
  · simp [h, destSubtotal]
  · rw [if_neg h]
    exact destTransfer_add_destFee priceOf items d

/-- Destination subtotals decompose item by item. -/
theorem destSubtotal_cons (priceOf : String → Option Nat) (it : CartItem)
    (rest : List CartItem) (d : String) :
    destSubtotal priceOf (it :: rest) d =
      itemContribution priceOf it d + destSubtotal priceOf rest d := by
  by_cases hd : it.dest = some d
  · rcases ha : itemAmount priceOf it with _ | a <;>
      simp [destSubtotal, itemContribution, destAmounts, List.filterMap_cons, hd, ha]
  · simp [destSubtotal, itemContribution, destAmounts, List.filterMap_cons, hd]

/-- The session total decomposes item by item. -/
theorem totalCharge_cons (priceOf : String → Option Nat) (it : CartItem)
    (rest : List CartItem) :
    totalCharge priceOf (it :: rest) =
      (itemAmount priceOf it).getD 0 + totalCharge priceOf rest := by
  rcases ha : itemAmount priceOf it with _ | a <;>
    simp [totalCharge, List.filterMap_cons, ha]

/-- Sums distribute over pointwise addition of two mapped functions. -/
theorem sum_map_add (l : List String) (f g : String → Nat) :
    (l.map (fun d => f d + g d)).sum = (l.map f).sum + (l.map g).sum := by
  induction l with
  | nil => simp
  | cons d rest ih => simp [ih]; omega

/-- Summing an indicator over a duplicate-free list collapses to a single
membership test. -/
theorem sum_map_ite_mem (ds : List String) (hnd : ds.Nodup) (o : Option String)
    (w : Nat) :
    (ds.map (fun d => if o = some d then w else 0)).sum =
      if o ∈ ds.map some then w else 0 := by
  induction ds with
  | nil => simp
  | cons d rest ih =>
    rcases List.nodup_cons.mp hnd with ⟨hd, hrest⟩
    simp only [List.map_cons, List.sum_cons]
    rw [ih hrest]
    by_cases ho : o = some d
    · subst ho
      have hnotin : some d ∉ rest.map some := by
        simp only [List.mem_map, Option.some.injEq]
        rintro ⟨x, hx, rfl⟩
        exact hd hx
      rw [if_pos rfl, if_neg hnotin, if_pos (List.mem_cons_self _ _)]
      omega
    · rw [if_neg ho]
      have hiff : (o ∈ some d :: rest.map some) ↔ (o ∈ rest.map some) := by
        constructor
        · intro h
          rcases List.mem_cons.mp h with h | h
          · exact absurd h ho
          · exact h
        · exact fun h => List.mem_cons_of_mem _ h
      by_cases hmem : o ∈ rest.map some
      · rw [if_pos hmem, if_pos (hiff.mpr hmem)]
        omega
      · rw [if_neg hmem, if_neg (fun hc => hmem (hiff.mp hc))]

/-- One item's contribution summed over a duplicate-free destination list
is its amount when its destination is listed, zero otherwise. -/
theorem sum_itemContribution (priceOf : String → Option Nat) (it : CartItem)
    (ds : List String) (hnd : ds.Nodup) :
    (ds.map (fun d => itemContribution priceOf it d)).sum =
      if it.dest ∈ ds.map some then (itemAmount priceOf it).getD 0 else 0 := by
  have h := sum_map_ite_mem ds hnd it.dest ((itemAmount priceOf it).getD 0)
  simpa [itemContribution] using h

/-- Summed over a duplicate-free destination list, the destination
subtotals never exceed the session total, and reach it when every item's
destination is listed. -/
theorem sum_destSubtotal_le (priceOf : String → Option Nat) (ds : List String)
    (hnd : ds.Nodup) (items : List CartItem) :
    (ds.map (fun d => destSubtotal priceOf items d)).sum ≤ totalCharge priceOf items
    ∧ ((∀ it ∈ items, it.dest ∈ ds.map some) →
        (ds.map (fun d => destSubtotal priceOf items d)).sum
          = totalCharge priceOf items) := by
  induction items with
  | nil => simp [destSubtotal, destAmounts, totalCharge]
  | cons it rest ih =>
    have hrw : (ds.map (fun d => destSubtotal priceOf (it :: rest) d)).sum
        = (ds.map (fun d => itemContribution priceOf it d)).sum
          + (ds.map (fun d => destSubtotal priceOf rest d)).sum := by
      rw [← sum_map_add]
      simp only [destSubtotal_cons]
    rw [totalCharge_cons, hrw, sum_itemContribution priceOf it ds hnd]
    constructor
    · have h1 := ih.1
      by_cases hm : it.dest ∈ ds.map some <;> simp [hm] <;> omega
    · intro hcov
      have hit := hcov it (List.mem_cons_self it rest)
      rw [if_pos hit]
      have h2 := ih.2 (fun x hx => hcov x (List.mem_cons_of_mem _ hx))
      omega

/-- C1 counterexample: on a cart with two items of 5 minor units for the
same vendor, `createMultiVendorCheckoutSession` puts fee 2 into the plan
(one rounded fee per item), whereas rounding ten percent of the
destination subtotal 10 gives fee 1, so the plan entry is not
`(subtotal - round(subtotal x 10%), round(subtotal x 10%))`. -/
theorem plan_fee_not_round_of_subtotal :
    buildTransferGroups priceTwoFives itemsTwoFives "v1" = some (8, 2)
    ∧ destSubtotal priceTwoFives itemsTwoFives "v1" = 10
    ∧ applicationFeeOf (destSubtotal priceTwoFives itemsTwoFives "v1") = 1
    ∧ ¬ buildTransferGroups priceTwoFives itemsTwoFives "v1" =
        some (destSubtotal priceTwoFives itemsTwoFives "v1"
                - applicationFeeOf (destSubtotal priceTwoFives itemsTwoFives "v1"),
              applicationFeeOf (destSubtotal priceTwoFives itemsTwoFives "v1")) := by
  refine ⟨?_, ?_, ?_, ?_⟩ <;> decide

/-- C1 (amended): for every destination with at least one contributing
item, the settlement plan assigns it the fee
`Σ round(unitPrice x quantity x 10%)` summed per item of exactly that
destination, and the transfer amount `subtotal - fee`; the amounts are
functions of that destination's items alone, never a global even split. -/
theorem plan_fee_is_per_item_sum (priceOf : String → Option Nat)
    (items : List CartItem) (d : String)
    (h : destAmounts priceOf items d ≠ []) :
    buildTransferGroups priceOf items d =
      some (destSubtotal priceOf items d - destFee priceOf items d,
            destFee priceOf items d) := by
  rw [build_lookup, if_neg h]
  have h2 := destTransfer_add_destFee priceOf items d
  have h3 : destTransfer priceOf items d =
      destSubtotal priceOf items d - destFee priceOf items d := by omega
  rw [h3]

/-- C1 witness: the specification's worked example, a 1000 x 2 vendor item
plus a 500 platform item, yields plan entry (1800, 200) for the vendor. -/
theorem plan_fee_per_item_sum_witness :
    destAmounts priceSpecExample itemsSpecExample "acct_V1" ≠ []
    ∧ buildTransferGroups priceSpecExample itemsSpecExample "acct_V1" =
        some (destSubtotal priceSpecExample itemsSpecExample "acct_V1"
                - destFee priceSpecExample itemsSpecExample "acct_V1",
              destFee priceSpecExample itemsSpecExample "acct_V1")
    ∧ buildTransferGroups priceSpecExample itemsSpecExample "acct_V1" =
        some (1800, 200) :=
  ⟨by decide, plan_fee_is_per_item_sum priceSpecExample itemsSpecExample "acct_V1"
      (by decide), by decide⟩

/-- C3: over any duplicate-free list of destinations, the transfer amounts
plus fees the plan accounts never exceed the session's total charge, with
equality when every item's destination is listed; and the even-split
settlement variant also never lets `n x amountPerVendor + platformFee`
exceed the charge amount. -/
theorem settlement_accounting_le_charge (priceOf : String → Option Nat)
    (items : List CartItem) (ds : List String)
    (hnd : ds.Nodup) (_hne : items ≠ []) :
    (ds.map (fun d => planPayout priceOf items d)).sum ≤ totalCharge priceOf items
    ∧ ((∀ it ∈ items, it.dest ∈ ds.map some) →
        (ds.map (fun d => planPayout priceOf items d)).sum
          = totalCharge priceOf items)
    ∧ (∀ total n : Nat,
        n * evenAmountPerVendor total n + evenPlatformFee total ≤ total) := by
  have hsum := sum_destSubtotal_le priceOf ds hnd items
  refine ⟨?_, ?_, ?_⟩
  · simp only [planPayout_eq_destSubtotal]
    exact hsum.1
  · intro hcov
    simp only [planPayout_eq_destSubtotal]
    exact hsum.2 hcov
  · intro total n
    have h1 : evenAmountPerVendor total n * n ≤ total - evenPlatformFee total :=
      Nat.div_mul_le_self _ _
    have h2 : evenPlatformFee total ≤ total := Nat.div_le_self _ _
    calc n * evenAmountPerVendor total n + evenPlatformFee total
        = evenAmountPerVendor total n * n + evenPlatformFee total := by
          rw [Nat.mul_comm]
      _ ≤ (total - evenPlatformFee total) + evenPlatformFee total :=
          Nat.add_le_add_right h1 _
      _ ≤ total := by omega

/-- C3 witness: the worked example cart with the single listed vendor
destination accounts 2000 of the 2500 charge. -/
theorem settlement_accounting_witness :
    (["acct_V1"] : List String).Nodup
    ∧ itemsSpecExample ≠ []
    ∧ ((["acct_V1"].map
          (fun d => planPayout priceSpecExample itemsSpecExample d)).sum
        ≤ totalCharge priceSpecExample itemsSpecExample
       ∧ ((∀ it ∈ itemsSpecExample, it.dest ∈ (["acct_V1"] : List String).map some) →
          (["acct_V1"].map
            (fun d => planPayout priceSpecExample itemsSpecExample d)).sum
            = totalCharge priceSpecExample itemsSpecExample)
       ∧ (∀ total n : Nat,
          n * evenAmountPerVendor total n + evenPlatformFee total ≤ total)) :=
  ⟨by decide, by decide,
   settlement_accounting_le_charge priceSpecExample itemsSpecExample ["acct_V1"]
     (by decide) (by decide)⟩

/-- The unconditional transfer loop records one creation attempt per
`transfer_data` entry, whatever the failure pattern. -/
theorem transferLoopV1_calls_aux (gw : Gateway) (chid currency : String) :
    ∀ (tds : List TransferEntry) (st : List TransferRec) (cs : List GatewayCall),
    (tds.foldl (transferStepV1 gw chid currency) (st, cs)).2 =
      cs ++ tds.map (fun td =>
        GatewayCall.createTransfer td.amount currency td.destination chid) := by
  intro tds
  induction tds with
  | nil => intro st cs; simp
  | cons td rest ih =>
    intro st cs
    rw [List.foldl_cons]
    rw [ih]
    simp [transferStepV1]

/-- The even-split transfer loop records one creation attempt per account
id, whatever the failure pattern. -/
theorem transferLoopV3_calls_aux (gw : Gateway) (chid currency : String) (per : Nat) :
    ∀ (ids : List String) (st : List TransferRec) (cs : List GatewayCall),
    (ids.foldl (transferStepV3 gw chid currency per) (st, cs)).2 =
      cs ++ ids.map (fun a => GatewayCall.createTransfer per currency a chid) := by
  intro ids
  induction ids with
  | nil => intro st cs; simp
  | cons a rest ih =>
    intro st cs
    rw [List.foldl_cons]
    rw [ih]
    simp [transferStepV3]

/-- C9: within one settlement invocation the per-destination transfer
attempts are independent.  For every failure oracle, both settlement loops
attempt a transfer creation for every entry of the plan, in plan order —
a Gateway failure on one destination never aborts, skips or cancels the
attempts for the remaining destinations. -/
theorem transfer_attempts_independent :
    (∀ (gw : Gateway) (st : List TransferRec) (tds : List TransferEntry)
        (chid currency : String),
      (transferLoopV1 gw st tds chid currency).2 =
        tds.map (fun td =>
          GatewayCall.createTransfer td.amount currency td.destination chid))
    ∧ (∀ (gw : Gateway) (st : List TransferRec) (ids : List String) (per : Nat)
        (chid currency : String),
      (transferLoopV3 gw st ids per chid currency).2 =
        ids.map (fun a => GatewayCall.createTransfer per currency a chid)) := by
  constructor
  · intro gw st tds chid currency
    unfold transferLoopV1
    rw [transferLoopV1_calls_aux]
    simp
  · intro gw st ids per chid currency
    unfold transferLoopV3
    rw [transferLoopV3_calls_aux]
    simp

/-- A transfer that fails the destination-and-group filter does not change
the dedup query's verdict. -/
theorem hasTransferForCharge_cons_mismatch (t : TransferRec) (st : List TransferRec)
    (dest chid : String)
    (h : (t.destination == dest && t.transfer_group == some ACCOUNT_GROUP_ID) = false) :
    hasTransferForCharge (t :: st) dest chid = hasTransferForCharge st dest chid := by
  unfold hasTransferForCharge listTransfersQuery
  rw [List.filter_cons, if_neg (by simp [h])]

/-- A freshly listed transfer for this charge, destination and group makes
the dedup query succeed. -/
theorem hasTransferForCharge_cons_hit (t : TransferRec) (st : List TransferRec)
    (dest chid : String)
    (hdest : t.destination = dest) (hgrp : t.transfer_group = some ACCOUNT_GROUP_ID)
    (hsrc : t.source_transaction = chid) :
    hasTransferForCharge (t :: st) dest chid = true := by
  unfold hasTransferForCharge listTransfersQuery
  rw [List.filter_cons, if_pos (by simp [hdest, hgrp])]
  have htake : (t :: (st.filter (fun x => x.destination == dest &&
      x.transfer_group == some ACCOUNT_GROUP_ID))).take 10 =
      t :: (st.filter (fun x => x.destination == dest &&
      x.transfer_group == some ACCOUNT_GROUP_ID)).take 9 := rfl
  rw [htake]
  simp [hsrc]

/-- Every settle step keeps an already-visible transfer for the charge
visible: it either leaves the state alone or prepends a transfer whose
source is this very charge. -/
theorem settleStep_preserves (gw : Gateway) (chid currency : String) (per : Nat)
    (st : List TransferRec) (a b : String)
    (h : hasTransferForCharge st a chid = true) :
    hasTransferForCharge (settleStep gw chid currency per st b) a chid = true := by
  unfold settleStep
  split
  · exact h
  · split
    · exact h
    · by_cases hab : b = a
      · subst hab
        exact hasTransferForCharge_cons_hit _ _ _ _ rfl rfl rfl
      · rw [hasTransferForCharge_cons_mismatch _ _ _ _ (by simp [hab])]
        exact h

/-- Visibility of a charge's transfer survives the whole settle fold. -/
theorem settleFold_preserves (gw : Gateway) (chid currency : String) (per : Nat) :
    ∀ (l : List String) (st : List TransferRec) (a : String),
    hasTransferForCharge st a chid = true →
    hasTransferForCharge (l.foldl (settleStep gw chid currency per) st) a chid
      = true := by
  intro l
  induction l with
  | nil => intro st a h; exact h
  | cons b bs ih =>
    intro st a h
    rw [List.foldl_cons]
    exact ih _ _ (settleStep_preserves gw chid currency per st a b h)

/-- After its own settle step, a destination whose creation does not fail
has a visible transfer for the charge. -/
theorem settleStep_establishes (gw : Gateway) (chid currency : String) (per : Nat)
    (st : List TransferRec) (a : String) (hf : gw.createFails a = false) :
    hasTransferForCharge (settleStep gw chid currency per st a) a chid = true := by
  unfold settleStep
  split
  · assumption
  · rw [hf]
    simp only [Bool.false_eq_true, if_false]
    exact hasTransferForCharge_cons_hit _ _ _ _ rfl rfl rfl

/-- After a settle fold in which no creation fails, every processed
destination has a visible transfer for the charge. -/
theorem settleFold_establishes (gw : Gateway) (chid currency : String) (per : Nat) :
    ∀ (l : List String) (st : List TransferRec),
    (∀ b ∈ l, gw.createFails b = false) →
    ∀ a ∈ l,
    hasTransferForCharge (l.foldl (settleStep gw chid currency per) st) a chid
      = true := by
  intro l
  induction l with
  | nil => intro st _ a ha; simp at ha
  | cons b bs ih =>
    intro st hf a ha
    rw [List.foldl_cons]
    rcases List.mem_cons.mp ha with rfl | hmem
    · exact settleFold_preserves gw chid currency per bs _ _
        (settleStep_establishes gw chid currency per st a
          (hf a (List.mem_cons_self _ _)))
    · exact ih _ (fun x hx => hf x (List.mem_cons_of_mem _ hx)) a hmem

/-- A settle fold over destinations that all already have a visible
transfer for the charge is a no-op. -/
theorem settleFold_noop (gw : Gateway) (chid currency : String) (per : Nat) :
    ∀ (l : List String) (st : List TransferRec),
    (∀ a ∈ l, hasTransferForCharge st a chid = true) →
    l.foldl (settleStep gw chid currency per) st = st := by
  intro l
  induction l with
  | nil => intro st _; rfl
  | cons b bs ih =>
    intro st h
    rw [List.foldl_cons]
    have hb : settleStep gw chid currency per st b = st := by
      unfold settleStep
      rw [if_pos (h b (List.mem_cons_self _ _))]
    rw [hb]
    exact ih st (fun a ha => h a (List.mem_cons_of_mem _ ha))

/-- With no transfer for the charge counted at a destination, the dedup
query cannot see one. -/
theorem not_visible_of_count_zero (st : List TransferRec) (dest chid : String)
    (h : countTransfers st dest chid = 0) :
    hasTransferForCharge st dest chid = false := by
  by_contra hc
  rw [Bool.not_eq_false] at hc
  unfold hasTransferForCharge at hc
  rw [List.any_eq_true] at hc
  obtain ⟨t, ht, hsrc⟩ := hc
  have ht2 := List.mem_of_mem_take ht
  have hmem := List.mem_filter.mp ht2
  have hpos : 0 < countTransfers st dest chid := by
    unfold countTransfers
    rw [List.countP_pos]
    refine ⟨t, hmem.1, ?_⟩
    have hpred := hmem.2
    simp only [Bool.and_eq_true, beq_iff_eq] at hpred hsrc ⊢
    exact ⟨hpred.1, hsrc⟩
  omega

/-- A settle step for a different destination does not change a
destination's transfer count for the charge. -/
theorem countTransfers_settleStep_other (gw : Gateway) (chid currency : String)
    (per : Nat) (st : List TransferRec) (a b : String) (hne : b ≠ a) :
    countTransfers (settleStep gw chid currency per st b) a chid
      = countTransfers st a chid := by
  unfold settleStep
  split
  · rfl
  · split
    · rfl
    · unfold countTransfers
      rw [List.countP_cons]
      simp [hne]

/-- A settle step for a destination that already sees its transfer leaves
the count unchanged. -/
theorem countTransfers_settleStep_visible (gw : Gateway) (chid currency : String)
    (per : Nat) (st : List TransferRec) (a : String)
    (h : hasTransferForCharge st a chid = true) :
    countTransfers (settleStep gw chid currency per st a) a chid
      = countTransfers st a chid := by
  unfold settleStep
  rw [if_pos h]

/-- Once a destination's transfer is visible, the rest of the settle fold
never changes its count. -/
theorem countTransfers_fold_visible (gw : Gateway) (chid currency : String)
    (per : Nat) :
    ∀ (l : List String) (st : List TransferRec) (a : String),
    hasTransferForCharge st a chid = true →
    countTransfers (l.foldl (settleStep gw chid currency per) st) a chid
      = countTransfers st a chid := by
  intro l
  induction l with
  | nil => intro st a _; rfl
  | cons b bs ih =>
    intro st a h
    rw [List.foldl_cons]
    by_cases hab : b = a
    · subst hab
      rw [ih _ _ (settleStep_preserves gw chid currency per st b b h),
        countTransfers_settleStep_visible gw chid currency per st b h]
    · rw [ih _ _ (settleStep_preserves gw chid currency per st a b h),
        countTransfers_settleStep_other gw chid currency per st a b hab]

/-- A settle fold in which no creation fails leaves exactly one transfer
for the charge at each destination that started with none. -/
theorem countTransfers_after_settle (gw : Gateway) (chid currency : String)
    (per : Nat) :
    ∀ (l : List String) (st : List TransferRec),
    (∀ b ∈ l, gw.createFails b = false) →
    ∀ a ∈ l, countTransfers st a chid = 0 →
    countTransfers (l.foldl (settleStep gw chid currency per) st) a chid = 1 := by
  intro l
  induction l with
  | nil => intro st _ a ha; simp at ha
  | cons b bs ih =>
    intro st hf a ha h0
    rw [List.foldl_cons]
    by_cases hab : a = b
    · subst hab
      have hv : hasTransferForCharge st a chid = false :=
        not_visible_of_count_zero st a chid h0
      have hstep : settleStep gw chid currency per st a =
          { amount := per, currency := currency, destination := a,
            source_transaction := chid,
            transfer_group := some ACCOUNT_GROUP_ID } :: st := by
        unfold settleStep
        rw [hv]
        simp only [Bool.false_eq_true, if_false]
        rw [hf a (List.mem_cons_self _ _)]
        simp
      rw [hstep]
      have h1 : countTransfers
          ({ amount := per, currency := currency, destination := a,
             source_transaction := chid,
             transfer_group := some ACCOUNT_GROUP_ID } :: st) a chid = 1 := by
        unfold countTransfers at h0 ⊢
        rw [List.countP_cons]
        simp [h0]
      have hvis : hasTransferForCharge
          ({ amount := per, currency := currency, destination := a,
             source_transaction := chid,
             transfer_group := some ACCOUNT_GROUP_ID } :: st) a chid = true :=
        hasTransferForCharge_cons_hit _ _ _ _ rfl rfl rfl
      rw [countTransfers_fold_visible gw chid currency per bs _ a hvis, h1]
    · have habs : a ∈ bs := by
        rcases List.mem_cons.mp ha with h | h
        · exact absurd h hab
        · exact h
      have hcount := countTransfers_settleStep_other gw chid currency per st a b
        (fun hba => hab hba.symm)
      refine ih _ (fun x hx => hf x (List.mem_cons_of_mem _ hx)) a habs ?_
      rw [hcount]
      exact h0

/-- C2 counterexample: the primary webhook handler (route.ts first
iteration) has no idempotency check, so delivering the same verified
payment_intent.succeeded notification twice creates two transfers to the
plan's destination for the same charge instead of exactly one. -/
theorem primary_webhook_duplicates_transfers :
    countTransfers
      (handleWebhookV1 gwNoFail
        (handleWebhookV1 gwNoFail ([] : List TransferRec) reqPISucceeded).2.1
        reqPISucceeded).2.1 "acct_v1" "ch_1" = 2
    ∧ ¬ countTransfers
        (handleWebhookV1 gwNoFail
          (handleWebhookV1 gwNoFail ([] : List TransferRec) reqPISucceeded).2.1
          reqPISucceeded).2.1 "acct_v1" "ch_1" = 1 := by
  refine ⟨?_, ?_⟩ <;> decide

/-- C2 (amended): the deduplicating settlement path (the charge.succeeded
handler of the third webhook iteration and part_008's
createTransfersToConnectedAccounts) is idempotent under redelivery: when
every creation succeeds, re-running settlement for the same charge changes
nothing, and starting from a state with no transfer for the charge each
destination ends up with exactly one transfer.  The primary handler's
checkout-completed / payment-succeeded paths lack the check and duplicate
on redelivery. -/
theorem settle_with_dedup_idempotent (gw : Gateway) (st : List TransferRec)
    (ch : Charge) (ids : List String)
    (hok : ∀ a ∈ ids, gw.createFails a = false)
    (hclean : ∀ a ∈ ids, countTransfers st a ch.id = 0) :
    settleChargeSucceeded gw (settleChargeSucceeded gw st ch ids) ch ids
      = settleChargeSucceeded gw st ch ids
    ∧ ∀ a ∈ ids,
        countTransfers (settleChargeSucceeded gw st ch ids) a ch.id = 1 := by
  constructor
  · unfold settleChargeSucceeded
    apply settleFold_noop
    intro a ha
    exact settleFold_establishes gw ch.id ch.currency
      (evenAmountPerVendor ch.amount ids.length) ids st hok a ha
  · intro a ha
    unfold settleChargeSucceeded
    exact countTransfers_after_settle gw ch.id ch.currency
      (evenAmountPerVendor ch.amount ids.length) ids st hok a ha (hclean a ha)

/-- C2 witness: settling a 2500 charge to two vendors through the
deduplicating path once and then again changes nothing, and each vendor
holds exactly one transfer. -/
theorem settle_with_dedup_idempotent_witness :
    (∀ a ∈ (["acct_v1", "acct_v2"] : List String), gwNoFail.createFails a = false)
    ∧ (∀ a ∈ (["acct_v1", "acct_v2"] : List String),
        countTransfers ([] : List TransferRec) a chFix.id = 0)
    ∧ (settleChargeSucceeded gwNoFail
          (settleChargeSucceeded gwNoFail [] chFix ["acct_v1", "acct_v2"])
          chFix ["acct_v1", "acct_v2"]
        = settleChargeSucceeded gwNoFail [] chFix ["acct_v1", "acct_v2"]
       ∧ ∀ a ∈ (["acct_v1", "acct_v2"] : List String),
          countTransfers
            (settleChargeSucceeded gwNoFail [] chFix ["acct_v1", "acct_v2"])
            a chFix.id = 1) :=
  ⟨by decide, by decide,
   settle_with_dedup_idempotent gwNoFail [] chFix ["acct_v1", "acct_v2"]
     (by decide) (by decide)⟩

/-- C4 counterexample: the legacy webhook iteration responds 400, not
200 {received:true}, to a verified checkout.session.completed notification
whose paid session carries no payment-intent reference (route.ts lines
151-154). -/
theorem legacy_webhook_400_on_missing_payment_intent :
    (handleWebhookV2 gwNoFail ([] : List TransferRec) reqPaidNoPI).1
      = ⟨400, RespBody.errorBody "No payment intent ID found"⟩
    ∧ ¬ (handleWebhookV2 gwNoFail ([] : List TransferRec) reqPaidNoPI).1
      = respReceived := by
  refine ⟨?_, ?_⟩ <;> decide

/-- C4 (amended): the primary webhook handler and the part_007 handler
answer every signature-verified notification with 200 {received:true},
whatever the Gateway state and failure pattern — transfer-creation
failures, a missing payment-intent reference and missing or malformed
settlement-plan metadata included.  The legacy iteration alone deviates,
answering 400 when a paid session lacks a payment-intent reference. -/
theorem verified_webhook_always_acknowledged (gw : Gateway)
    (st : List TransferRec) (req : WebhookReq) (ev : WebhookEvent)
    (h1 : req.hasSignature = true) (h2 : req.verified = some ev) :
    (handleWebhookV1 gw st req).1 = respReceived
    ∧ (handleWebhookPart7 gw st req).1 = respReceived := by
  obtain ⟨hs, hv⟩ := req
  simp only at h1 h2
  subst h1
  subst h2
  exact ⟨rfl, rfl⟩

/-- C4 witness: a verified notification for `piFix` is acknowledged by
both handlers. -/
theorem verified_webhook_ack_witness :
    reqPISucceeded.hasSignature = true
    ∧ reqPISucceeded.verified = some (WebhookEvent.paymentIntentSucceeded piFix)
    ∧ ((handleWebhookV1 gwNoFail [] reqPISucceeded).1 = respReceived
       ∧ (handleWebhookPart7 gwNoFail [] reqPISucceeded).1 = respReceived) :=
  ⟨rfl, rfl,
   verified_webhook_always_acknowledged gwNoFail [] reqPISucceeded
     (WebhookEvent.paymentIntentSucceeded piFix) rfl rfl⟩

/-- C5: a notification with a missing stripe-signature header or a failing
signature verification is answered 400 by every webhook iteration, with
the Gateway state untouched and zero Gateway calls performed. -/
theorem invalid_signature_no_side_effects (gw : Gateway)
    (st : List TransferRec) (req : WebhookReq)
    (h : req.hasSignature = false ∨ req.verified = none) :
    (handleWebhookV1 gw st req).1.status = 400
    ∧ (handleWebhookV1 gw st req).2 = (st, [])
    ∧ (handleWebhookV2 gw st req).1.status = 400
    ∧ (handleWebhookV2 gw st req).2 = (st, [])
    ∧ (handleWebhookPart7 gw st req).1.status = 400
    ∧ (handleWebhookPart7 gw st req).2 = (st, []) := by
  obtain ⟨hs, hv⟩ := req
  rcases h with h | h
  · simp only at h
    subst h
    exact ⟨rfl, rfl, rfl, rfl, rfl, rfl⟩
  · simp only at h
    subst h
    cases hs <;> exact ⟨rfl, rfl, rfl, rfl, rfl, rfl⟩

/-- C5 witness: a request with no signature header is rejected by all
three handlers without side effects. -/
theorem invalid_signature_witness :
    (reqNoSig.hasSignature = false ∨ reqNoSig.verified = none)
    ∧ ((handleWebhookV1 gwNoFail [] reqNoSig).1.status = 400
       ∧ (handleWebhookV1 gwNoFail [] reqNoSig).2 = (([] : List TransferRec), [])
       ∧ (handleWebhookV2 gwNoFail [] reqNoSig).1.status = 400
       ∧ (handleWebhookV2 gwNoFail [] reqNoSig).2 = (([] : List TransferRec), [])
       ∧ (handleWebhookPart7 gwNoFail [] reqNoSig).1.status = 400
       ∧ (handleWebhookPart7 gwNoFail [] reqNoSig).2 = (([] : List TransferRec), [])) :=
  ⟨Or.inl rfl,
   invalid_signature_no_side_effects gwNoFail [] reqNoSig (Or.inl rfl)⟩

/-- C10: a verified notification whose event type is none of
checkout.session.completed, payment_intent.succeeded or charge.succeeded
is acknowledged with 200 {received:true} by the primary, legacy and
part_007 handlers while performing no Gateway call and leaving the
transfer state untouched. -/
theorem unhandled_events_no_effect (gw : Gateway) (st : List TransferRec)
    (t : String) (req : WebhookReq)
    (h1 : req.hasSignature = true)
    (h2 : req.verified = some (WebhookEvent.other t)) :
    handleWebhookV1 gw st req = (respReceived, st, [])
    ∧ handleWebhookV2 gw st req = (respReceived, st, [])
    ∧ handleWebhookPart7 gw st req = (respReceived, st, []) := by
  obtain ⟨hs, hv⟩ := req
  simp only at h1 h2
  subst h1
  subst h2
  exact ⟨rfl, rfl, rfl⟩

/-- C10 witness: a verified invoice.paid notification is acknowledged
without effect. -/
theorem unhandled_events_witness :
    reqOtherEvent.hasSignature = true
    ∧ reqOtherEvent.verified = some (WebhookEvent.other "invoice.paid")
    ∧ (handleWebhookV1 gwNoFail [] reqOtherEvent = (respReceived, [], [])
       ∧ handleWebhookV2 gwNoFail [] reqOtherEvent = (respReceived, [], [])
       ∧ handleWebhookPart7 gwNoFail [] reqOtherEvent = (respReceived, [], [])) :=
  ⟨rfl, rfl,
   unhandled_events_no_effect gwNoFail [] "invoice.paid" reqOtherEvent rfl rfl⟩

/-- C6 counterexample: a checkout request whose body has no items field is
answered 500 "Failed to create checkout session" (the request logging
dereferences the absent list and the TypeError lands in the outer catch),
not 400 {error:"Cart is empty"}. -/
theorem absent_items_yields_500 :
    checkoutPOST gwNoFail reqAbsentItems
      = (⟨500, RespBody.errorBody "Failed to create checkout session"⟩, [])
    ∧ ¬ (checkoutPOST gwNoFail reqAbsentItems).1
        = ⟨400, RespBody.errorBody "Cart is empty"⟩ := by
  refine ⟨?_, ?_⟩ <;> decide

/-- C6 (amended): a checkout request whose items list is present but empty
is answered 400 {error:"Cart is empty"} before any Gateway call, and no
session is created; a request with the items field absent instead draws
the generic 500, still with no Gateway call. -/
theorem empty_cart_rejected_before_gateway (gw : Gateway) (req : CheckoutRequest)
    (h : req.items = some []) :
    checkoutPOST gw req = (⟨400, RespBody.errorBody "Cart is empty"⟩, []) := by
  obtain ⟨it, uid, em⟩ := req
  simp only at h
  subst h
  rfl

/-- C6 witness: the concrete empty-cart request is rejected with 400 and
an empty call trace. -/
theorem empty_cart_witness :
    reqEmptyCart.items = some []
    ∧ checkoutPOST gwNoFail reqEmptyCart
      = (⟨400, RespBody.errorBody "Cart is empty"⟩, []) :=
  ⟨rfl, empty_cart_rejected_before_gateway gwNoFail reqEmptyCart rfl⟩

/-- The stable-sort head is one of the candidates. -/
theorem firstMaxCreated_mem :
    ∀ (cs : List StripeCustomer) (c : StripeCustomer),
    firstMaxCreated c cs ∈ c :: cs := by
  intro cs
  induction cs with
  | nil => intro c; simp [firstMaxCreated]
  | cons x xs ih =>
    intro c
    have hrw : firstMaxCreated c (x :: xs)
        = firstMaxCreated (if c.created < x.created then x else c) xs := rfl
    rw [hrw]
    rcases List.mem_cons.mp (ih (if c.created < x.created then x else c)) with h | h
    · rw [h]
      by_cases hc : c.created < x.created <;> simp [hc]
    · simp [h]

/-- The stable-sort head attains the maximal creation time among the
candidates. -/
theorem firstMaxCreated_ge :
    ∀ (cs : List StripeCustomer) (c : StripeCustomer),
    ∀ y ∈ c :: cs, y.created ≤ (firstMaxCreated c cs).created := by
  intro cs
  induction cs with
  | nil =>
    intro c y hy
    rcases List.mem_cons.mp hy with rfl | h
    · exact Nat.le_refl _
    · simp at h
  | cons x xs ih =>
    intro c y hy
    have hrw : firstMaxCreated c (x :: xs)
        = firstMaxCreated (if c.created < x.created then x else c) xs := rfl
    rw [hrw]
    have hc : c.created ≤ (if c.created < x.created then x else c).created := by
      by_cases h : c.created < x.created <;> simp [h] <;> omega
    have hx : x.created ≤ (if c.created < x.created then x else c).created := by
      by_cases h : c.created < x.created <;> simp [h] <;> omega
    have hc2 := ih (if c.created < x.created then x else c)
      (if c.created < x.created then x else c) (List.mem_cons_self _ _)
    rcases List.mem_cons.mp hy with rfl | hy2
    · exact Nat.le_trans hc hc2
    · rcases List.mem_cons.mp hy2 with rfl | hy3
      · exact Nat.le_trans hx hc2
      · exact ih _ y (List.mem_cons_of_mem _ hy3)

/-- C7: with multiple matching customer identities,
`findStripeCustomerByEmail` deterministically returns a listed identity
that has a non-empty source list and the greatest creation time among
those, and when no identity has a source, the greatest creation time
overall — the total order (hasPaymentMethod desc, createdAt desc). -/
theorem find_customer_total_order (cs : List StripeCustomer)
    (h : 2 ≤ cs.length) :
    ∃ c, findStripeCustomerByEmail cs = some c ∧ c ∈ cs
      ∧ ((∃ x ∈ cs, 0 < x.sourcesCount) →
          0 < c.sourcesCount
          ∧ ∀ x ∈ cs, 0 < x.sourcesCount → x.created ≤ c.created)
      ∧ ((∀ x ∈ cs, x.sourcesCount = 0) → ∀ x ∈ cs, x.created ≤ c.created) := by
  rcases cs with _ | ⟨a, _ | ⟨b, rest⟩⟩
  · simp at h
  · simp at h
  · cases hw : (a :: b :: rest).filter (fun c => decide (0 < c.sourcesCount)) with
    | nil =>
      refine ⟨firstMaxCreated a (b :: rest), ?_, ?_, ?_, ?_⟩
      · simp only [findStripeCustomerByEmail]
        rw [hw]
      · exact firstMaxCreated_mem _ _
      · rintro ⟨x, hx, hpos⟩
        have hxf : x ∈ (a :: b :: rest).filter
            (fun c => decide (0 < c.sourcesCount)) :=
          List.mem_filter.mpr ⟨hx, by simp [hpos]⟩
        rw [hw] at hxf
        simp at hxf
      · intro _ x hx
        exact firstMaxCreated_ge (b :: rest) a x hx
    | cons w ws =>
      refine ⟨firstMaxCreated w ws, ?_, ?_, ?_, ?_⟩
      · simp only [findStripeCustomerByEmail]
        rw [hw]
      · have hmem := firstMaxCreated_mem ws w
        rw [← hw] at hmem
        exact List.mem_of_mem_filter hmem
      · intro _
        constructor
        · have hmem := firstMaxCreated_mem ws w
          rw [← hw] at hmem
          have hpred := (List.mem_filter.mp hmem).2
          simpa using hpred
        · intro x hx hxpos
          have hxf : x ∈ (a :: b :: rest).filter
              (fun c => decide (0 < c.sourcesCount)) :=
            List.mem_filter.mpr ⟨hx, by simp [hxpos]⟩
          rw [hw] at hxf
          exact firstMaxCreated_ge ws w x hxf
      · intro hall
        have hwmem : w ∈ (a :: b :: rest).filter
            (fun c => decide (0 < c.sourcesCount)) := by
          rw [hw]
          exact List.mem_cons_self _ _
        have h1 := List.mem_filter.mp hwmem
        have h2 := hall w h1.1
        have h3 := h1.2
        rw [h2] at h3
        simp at h3

/-- C7 witness: among duplicates A (created 1, no payment method) and
B (created 2, one source), the resolver returns B. -/
theorem find_customer_prefers_payment_method_witness :
    2 ≤ ([⟨"cus_A", 1, 0⟩, ⟨"cus_B", 2, 1⟩] : List StripeCustomer).length
    ∧ (∃ c, findStripeCustomerByEmail
          [(⟨"cus_A", 1, 0⟩ : StripeCustomer), ⟨"cus_B", 2, 1⟩] = some c
        ∧ c ∈ ([⟨"cus_A", 1, 0⟩, ⟨"cus_B", 2, 1⟩] : List StripeCustomer)
        ∧ ((∃ x ∈ ([⟨"cus_A", 1, 0⟩, ⟨"cus_B", 2, 1⟩] : List StripeCustomer),
              0 < x.sourcesCount) →
            0 < c.sourcesCount
            ∧ ∀ x ∈ ([⟨"cus_A", 1, 0⟩, ⟨"cus_B", 2, 1⟩] : List StripeCustomer),
                0 < x.sourcesCount → x.created ≤ c.created)
        ∧ ((∀ x ∈ ([⟨"cus_A", 1, 0⟩, ⟨"cus_B", 2, 1⟩] : List StripeCustomer),
              x.sourcesCount = 0) →
            ∀ x ∈ ([⟨"cus_A", 1, 0⟩, ⟨"cus_B", 2, 1⟩] : List StripeCustomer),
              x.created ≤ c.created))
    ∧ findStripeCustomerByEmail
        [(⟨"cus_A", 1, 0⟩ : StripeCustomer), ⟨"cus_B", 2, 1⟩]
        = some ⟨"cus_B", 2, 1⟩ :=
  ⟨by decide,
   find_customer_total_order [⟨"cus_A", 1, 0⟩, ⟨"cus_B", 2, 1⟩] (by decide),
   by decide⟩

/-- C8 counterexample: with duplicate markers chained
cus_A -> cus_B -> cus_C, `getPrimaryCustomerId` maps cus_A to cus_B and
cus_B to cus_C, so canonicalize(canonicalize(cus_A)) differs from
canonicalize(cus_A): the single-step lookup is not idempotent on chains. -/
theorem canonicalize_not_idempotent_on_chain :
    getPrimaryCustomerId storeChain "cus_A" = "cus_B"
    ∧ getPrimaryCustomerId storeChain (getPrimaryCustomerId storeChain "cus_A")
        = "cus_C"
    ∧ ¬ getPrimaryCustomerId storeChain (getPrimaryCustomerId storeChain "cus_A")
        = getPrimaryCustomerId storeChain "cus_A" := by
  refine ⟨?_, ?_, ?_⟩ <;> decide

/-- C8 (amended): `getPrimaryCustomerId` returns the referenced primary id
exactly when the identity carries a usable duplicate marker and the input
unchanged otherwise, and it is a pure lookup; it is idempotent provided no
referenced primary identity carries a duplicate marker itself — on marker
chains a second application moves one step further, so idempotence fails. -/
theorem canonicalize_idempotent_without_chains
    (store : String → Option CustomerMeta)
    (hnochain : ∀ x c p, store x = some c → c.deleted = false →
      c.is_duplicate = some "true" → c.primary_customer_id = some p →
      ¬ p = "" → getPrimaryCustomerId store p = p)
    (cid : String) :
    getPrimaryCustomerId store (getPrimaryCustomerId store cid)
      = getPrimaryCustomerId store cid
    ∧ (∀ x c, store x = some c →
        (c.deleted = true ∨ c.is_duplicate ≠ some "true") →
        getPrimaryCustomerId store x = x)
    ∧ (∀ x c p, store x = some c → c.deleted = false →
        c.is_duplicate = some "true" → c.primary_customer_id = some p →
        ¬ p = "" → getPrimaryCustomerId store x = p) := by
  refine ⟨?_, ?_, ?_⟩
  · rcases hs : store cid with _ | c
    · have h1 : getPrimaryCustomerId store cid = cid := by
        simp [getPrimaryCustomerId, hs]
      rw [h1, h1]
    · by_cases hg : c.deleted = false ∧ c.is_duplicate = some "true"
      · rcases hp : c.primary_customer_id with _ | p
        · have h1 : getPrimaryCustomerId store cid = cid := by
            simp [getPrimaryCustomerId, hs, hg.1, hg.2, hp]
          rw [h1, h1]
        · by_cases hpe : p = ""
          · have h1 : getPrimaryCustomerId store cid = cid := by
              simp [getPrimaryCustomerId, hs, hg.1, hg.2, hp, hpe]
            rw [h1, h1]
          · have h1 : getPrimaryCustomerId store cid = p := by
              simp [getPrimaryCustomerId, hs, hg.1, hg.2, hp, hpe]
            rw [h1]
            exact hnochain cid c p hs hg.1 hg.2 hp hpe
      · have h1 : getPrimaryCustomerId store cid = cid := by
          simp [getPrimaryCustomerId, hs, hg]
        rw [h1, h1]
  · intro x c hx hcond
    rcases hcond with hd | hdup
    · simp [getPrimaryCustomerId, hx, hd]
    · simp [getPrimaryCustomerId, hx, hdup]
  · intro x c p hx hd hdup hp hpe
    simp [getPrimaryCustomerId, hx, hd, hdup, hp, hpe]

/-- C8 witness: with a single marker cus_A -> cus_B whose primary is
unmarked, canonicalize is idempotent at cus_A and follows or ignores the
marker as specified. -/
theorem canonicalize_idempotent_witness :
    getPrimaryCustomerId storeSingleDup
        (getPrimaryCustomerId storeSingleDup "cus_A")
      = getPrimaryCustomerId storeSingleDup "cus_A"
    ∧ (∀ x c, storeSingleDup x = some c →
        (c.deleted = true ∨ c.is_duplicate ≠ some "true") →
        getPrimaryCustomerId storeSingleDup x = x)
    ∧ (∀ x c p, storeSingleDup x = some c → c.deleted = false →
        c.is_duplicate = some "true" → c.primary_customer_id = some p →
        ¬ p = "" → getPrimaryCustomerId storeSingleDup x = p) :=
  canonicalize_idempotent_without_chains storeSingleDup
    (by
      intro x c p hx hd hdup hp hpe
      by_cases hxa : x = "cus_A"
      · subst hxa
        have h0 : storeSingleDup "cus_A"
            = some (⟨false, some "true", some "cus_B"⟩ : CustomerMeta) := by decide
        rw [h0] at hx
        have hc := Option.some.inj hx
        rw [← hc] at hp
        have hp2 := Option.some.inj hp
        rw [← hp2]
        decide
      · simp [storeSingleDup, hxa] at hx)
    "cus_A"
